import Mathlib

/-!
Verification of the fractional rank ordering engine of the TASK-MANAGER
repository (`src/project/project.service.ts`, second revision in the file,
and `src/project/project.controller.ts`).

The TypeScript source is shallowly embedded: `BigInt` becomes `Nat`
(all values handled are non-negative and `BigInt` division on non-negative
operands is floor division, i.e. `Nat` division), decimal strings become
`String`, nullable values become `Option`, thrown exceptions become
`Except`, and each Prisma query is replaced by the corresponding pure
lookup over an explicit database snapshot.
-/

namespace TaskManager

/-! ## Rank codec (project.service.ts lines 2254-2283) -/

/-- `ProjectService.WIDTH` (line 2254). -/
def WIDTH : Nat := 16

/-- Digit character, as produced by `BigInt.prototype.toString` (base 10). -/
def digitChar (d : Nat) : Char :=
  match d with
  | 0 => '0' | 1 => '1' | 2 => '2' | 3 => '3' | 4 => '4'
  | 5 => '5' | 6 => '6' | 7 => '7' | 8 => '8' | _ => '9'

/-- Numeric value of a digit character, as used by `BigInt(s)` parsing. -/
def digitVal (c : Char) : Nat := c.toNat - 48

/-- Fuel-indexed decimal printer; `fuel > n` is always sufficient. -/
def natToDigitsAux (fuel : Nat) (n : Nat) : List Char :=
  match fuel with
  | 0 => []
  | fuel + 1 =>
    if n < 10 then [digitChar n]
    else natToDigitsAux fuel (n / 10) ++ [digitChar (n % 10)]

/-- Decimal representation of `n`, mirroring `BigInt.prototype.toString()`:
no leading zeros, and `"0"` for zero. -/
def natToDigits (n : Nat) : List Char := natToDigitsAux (n + 1) n

/-- `BigInt(s)` on a decimal-digit string: fold the digits left to right. -/
def foldDigits (a : Nat) (l : List Char) : Nat :=
  l.foldl (fun acc c => acc * 10 + digitVal c) a

/-- Numeric value of a decimal-digit string. -/
def strToNat (s : String) : Nat := foldDigits 0 s.data

/-- `ProjectService.MAX = BigInt('9'.repeat(WIDTH))` (line 2255). -/
def MAX : Nat := strToNat ⟨List.replicate WIDTH '9'⟩

/-- `pad(n)` (lines 2257-2261): zero-pad the decimal representation to
`WIDTH` characters, keeping only the last `WIDTH` characters (`slice(-w)`)
if it is longer. -/
def pad (n : Nat) : String :=
  let s := natToDigits n
  if s.length ≥ WIDTH then ⟨s.drop (s.length - WIDTH)⟩
  else ⟨List.replicate (WIDTH - s.length) '0' ++ s⟩

/-- JavaScript truthiness test `!s` for a nullable string: `null`,
`undefined` and the empty string are falsy. -/
def isBlank : Option String → Bool
  | none => true
  | some s => s.length == 0

/-- `toBig(s)` (lines 2262-2264): `s && s.length ? BigInt(s) : 0n`. -/
def toBig : Option String → Nat
  | none => 0
  | some s => if s.length = 0 then 0 else strToNat s

/-- `mid(a, b)` (lines 2265-2270). -/
def mid (a b : Nat) : String :=
  if b ≤ a then pad ((a + MAX) / 2)
  else
    let m := (a + b) / 2
    if m = a ∨ m = b then pad (a + 1)
    else pad m

/-- `rankBetween(prev, next)` (lines 2271-2276). -/
def rankBetween (prev next : Option String) : String :=
  if isBlank prev && isBlank next then ⟨List.replicate WIDTH '8'⟩
  else if isBlank prev then pad (toBig next / 2)
  else if isBlank next then pad ((toBig prev + MAX) / 2)
  else mid (toBig prev) (toBig next)

/-- `rankAfter(prev)` (lines 2277-2279). -/
def rankAfter (prev : Option String) : String := rankBetween prev none

/-- `rankFirst()` (lines 2281-2283). -/
def rankFirst : String := "0000000000000001"

/-! ## GUID normalization (lines 2285-2296) -/

/-- One character of `UUID_REGEX`'s hex classes `[0-9a-fA-F]` (code points
48-57, 97-102, 65-70). -/
def isHexDigit (c : Char) : Bool :=
  (48 ≤ c.toNat && c.toNat ≤ 57) || (97 ≤ c.toNat && c.toNat ≤ 102) ||
    (65 ≤ c.toNat && c.toNat ≤ 70)

/-- `UUID_REGEX` (lines 2285-2286): 8-4-4-4-12 hex groups joined by dashes. -/
def uuidShape (cs : List Char) : Bool :=
  cs.length == 36 &&
  (List.range 36).all fun i =>
    if i == 8 || i == 13 || i == 18 || i == 23 then cs.getD i ' ' == '-'
    else isHexDigit (cs.getD i ' ')

/-- `stripSectionPrefix(id)` (lines 2288-2291): falsy input maps to `null`,
a leading `"section-"` marker is removed. -/
def stripSectionPfx : Option String → Option String
  | none => none
  | some s =>
    if s.length = 0 then none
    else if s.data.take 8 = "section-".data then some ⟨s.data.drop 8⟩
    else some s

/-- `normalizeGuid(id)` (lines 2292-2296): strip the section marker, reject
anything that is not a well-formed UUID, lower-case the rest. -/
def normalizeGuid (id : Option String) : Option String :=
  match stripSectionPfx id with
  | none => none
  | some raw =>
    if raw.length == 0 || !uuidShape raw.data then none
    else some ⟨raw.data.map Char.toLower⟩

/-! ## Database snapshot model

Prisma rows become records; `findFirst`/`findUnique` become pure lookups
over a snapshot.  Rank columns are compared by the store as strings, which
for the fixed-width keys the engine writes is plain lexicographic order on
the character codes. -/

structure TaskRow where
  id : String
  id_dt_project : String
  id_dt_section : Option String
  rank : Option String
deriving DecidableEq

structure SectionRow where
  id : String
  id_dt_project : String
  rank : String
deriving DecidableEq

structure SubTaskRow where
  id : String
  id_dt_task : Option String
  rank : Option String
deriving DecidableEq

structure Db where
  projects : List String
  tasks : List TaskRow
  sections : List SectionRow
  subtasks : List SubTaskRow
deriving DecidableEq

/-- Lexicographic strict order on character lists (store collation on the
ASCII digit keys). -/
def lexLtB : List Char → List Char → Bool
  | [], [] => false
  | [], _ :: _ => true
  | _ :: _, [] => false
  | a :: as, b :: bs =>
    if a.toNat < b.toNat then true
    else if b.toNat < a.toNat then false
    else lexLtB as bs

def strLtB (s t : String) : Bool := lexLtB s.data t.data

/-- Row filter for `rank: { gt: bound ?? undefined }`: with a `null` bound
the filter vanishes (`undefined`), and a SQL `NULL` rank never satisfies a
comparison. -/
def rankGtB (bound : Option String) (r : Option String) : Bool :=
  match bound with
  | none => true
  | some b => match r with
    | none => false
    | some s => strLtB b s

/-- Row filter for `rank: { lt: bound ?? undefined }`. -/
def rankLtB (bound : Option String) (r : Option String) : Bool :=
  match bound with
  | none => true
  | some b => match r with
    | none => false
    | some s => strLtB s b

/-- Strictly-earlier test for `orderBy: { rank: 'asc' }` (a `NULL` rank
sorts last; no row in the claims below carries one). -/
def rankAscBeforeB : Option String → Option String → Bool
  | some x, some y => strLtB x y
  | some _, none => true
  | none, _ => false

/-- Strictly-earlier test for `orderBy: { rank: 'desc' }` (a `NULL` rank
sorts first; no row in the claims below carries one). -/
def rankDescBeforeB : Option String → Option String → Bool
  | none, some _ => true
  | none, none => false
  | some _, none => false
  | some x, some y => strLtB y x

/-- First element of `l` in the order induced by `before` (stable: on ties
the earlier element wins), i.e. `findFirst` with an `orderBy`. -/
def firstBy {α : Type} (before : α → α → Bool) (l : List α) : Option α :=
  l.foldl (fun acc r =>
    match acc with
    | none => some r
    | some m => if before r m then some r else acc) none

def findFirstAsc {α : Type} (rk : α → Option String) (p : α → Bool) (l : List α) : Option α :=
  firstBy (fun a b => rankAscBeforeB (rk a) (rk b)) (l.filter p)

def findFirstDesc {α : Type} (rk : α → Option String) (p : α → Bool) (l : List α) : Option α :=
  firstBy (fun a b => rankDescBeforeB (rk a) (rk b)) (l.filter p)

/-! ## Move coordinator for tasks (service lines 1336-1459, controller
lines 141-181) -/

/-- The service-level move body: `targetSectionId` distinguishes field
absence (outer `none`) from an explicit `null` (inner `none`); for the
neighbor hints the service itself collapses absence and `null` via
`?? null`, so a single `Option` suffices. -/
structure MoveTaskBody where
  targetSectionId : Option (Option String)
  beforeId : Option String
  afterId : Option String
deriving DecidableEq

inductive MoveErr where
  | badRequest (msg : String)
  | notFound (msg : String)
deriving DecidableEq

/-- Effect of a task move: either the no-op short circuit returned the
current row without writing, or a single update row was written. -/
inductive WriteTask where
  | noWrite (t : TaskRow)
  | wrote (id : String) (sect : Option String) (rank : String)
deriving DecidableEq

/-- Destination-section sentinel rule (service lines 1357-1363): absent
field means the task's current section, a sent value is normalized with
invalid or `null` values collapsing to the unlocated bucket. -/
def destSectionOf (target : Option (Option String)) (current : Option String) : Option String :=
  match target with
  | some v => normalizeGuid v
  | none => current

/-- Controller-side normalization of `targetSectionId` (controller lines
162-167): the UI sentinels `"unlocated"` and `"null"` become `null`;
absence is preserved. -/
def controllerTargetNorm (target : Option (Option String)) : Option (Option String) :=
  match target with
  | none => none
  | some raw =>
    some (match raw with
      | some s => if s == "unlocated" || s == "null" then none else some s
      | none => none)

def findSection (db : Db) (sid pid : String) : Option SectionRow :=
  db.sections.find? fun s => s.id == sid && s.id_dt_project == pid

/-- `ensureSectionExists(projectId, sectionId)` (lines 2341-2352). -/
def ensureSectionExists (db : Db) (projectId sectionId : String) : Except MoveErr SectionRow :=
  match normalizeGuid (some projectId) with
  | none => .error (.badRequest "Invalid projectId")
  | some pid =>
  match normalizeGuid (some sectionId) with
  | none => .error (.badRequest "Invalid sectionId")
  | some sid =>
  match findSection db sid pid with
  | none => .error (.notFound "Section not found in project")
  | some sec => .ok sec

def inDest (pid : String) (dest : Option String) (t : TaskRow) : Bool :=
  t.id_dt_project == pid && t.id_dt_section == dest

/-- Neighbor-hint resolution of `moveTask` (lines 1369-1389): normalize the
hint, drop a self reference, and look the row up scoped to the destination
container; a missing row is `null`, not an error. -/
def resolvedNeighborTask (db : Db) (pid tid : String) (dest : Option String)
    (hint : Option String) : Option TaskRow :=
  let idRaw := normalizeGuid hint
  let idFinal := if idRaw == some tid then none else idRaw
  idFinal.bind fun b => db.tasks.find? fun t =>
    t.id == b && t.id_dt_project == pid && t.id_dt_section == dest

/-- `computeNewRank` inside `moveTask` (lines 1392-1439); `top` is the
resolved `afterId` row and `bottom` the resolved `beforeId` row. -/
def computeNewRankTask (db : Db) (pid : String) (dest : Option String)
    (top bottom : Option TaskRow) : String :=
  match top, bottom with
  | some t, some b => rankBetween t.rank b.rank
  | some t, none =>
    let nextBelow := findFirstAsc TaskRow.rank
      (fun r => inDest pid dest r && rankGtB t.rank r.rank) db.tasks
    rankBetween t.rank (nextBelow.bind TaskRow.rank)
  | none, some b =>
    let prevAbove := findFirstDesc TaskRow.rank
      (fun r => inDest pid dest r && rankLtB b.rank r.rank) db.tasks
    rankBetween (prevAbove.bind TaskRow.rank) b.rank
  | none, none =>
    let mx := findFirstDesc TaskRow.rank (fun r => inDest pid dest r) db.tasks
    rankAfter (mx.bind TaskRow.rank)

/-- `moveTask(projectId, taskId, body)` (lines 1336-1459) over a snapshot;
the final update is reified as a `WriteTask.wrote` value. -/
def moveTask (db : Db) (projectId taskId : String) (body : MoveTaskBody) :
    Except MoveErr WriteTask :=
  match normalizeGuid (some projectId) with
  | none => .error (.badRequest "Invalid projectId")
  | some pid =>
  match normalizeGuid (some taskId) with
  | none => .error (.badRequest "Invalid taskId")
  | some tid =>
  match db.tasks.find? (fun t => t.id == tid && t.id_dt_project == pid) with
  | none => .error (.notFound "Task not found in project")
  | some task =>
    let destSectionId := destSectionOf body.targetSectionId task.id_dt_section
    let secCheck : Except MoveErr Unit :=
      match destSectionId with
      | some d => (ensureSectionExists db pid d).map fun _ => ()
      | none => .ok ()
    match secCheck with
    | .error e => .error e
    | .ok _ =>
      let before := resolvedNeighborTask db pid tid destSectionId body.beforeId
      let after := resolvedNeighborTask db pid tid destSectionId body.afterId
      let newRank := computeNewRankTask db pid destSectionId after before
      if task.id_dt_section == destSectionId && task.rank == some newRank then
        match db.tasks.find? (fun t => t.id == tid) with
        | none => .error (.notFound "Task not found")
        | some current => .ok (.noWrite current)
      else .ok (.wrote tid destSectionId newRank)

/-! ## Move coordinator for subtasks (lines 1863-1954) -/

inductive WriteSub where
  | noWrite (s : SubTaskRow)
  | wrote (id : String) (rank : String)
deriving DecidableEq

/-- `fetchNeighbor` inside `moveSubTask` (lines 1883-1890): a `findUnique`
by id whose result is discarded unless it belongs to the same parent task. -/
def fetchNeighborSub (db : Db) (tid : String) : Option String → Option SubTaskRow
  | none => none
  | some nid =>
    match db.subtasks.find? (fun s => s.id == nid) with
    | none => none
    | some n => if n.id_dt_task == some tid then some n else none

/-- Neighbor-hint resolution of `moveSubTask` (lines 1878-1892): normalize
the hint, drop a self reference, then fetch and scope-check the row. -/
def resolvedNeighborSub (db : Db) (sid tid : String) (hint : Option String) :
    Option SubTaskRow :=
  let idRaw := normalizeGuid hint
  let idFinal := if idRaw == some sid then none else idRaw
  fetchNeighborSub db tid idFinal

/-- `computeNewRank` inside `moveSubTask` (lines 1895-1932). -/
def computeNewRankSub (db : Db) (tid : String) (top bottom : Option SubTaskRow) : String :=
  match top, bottom with
  | some t, some b => rankBetween t.rank b.rank
  | some t, none =>
    let nextBelow := findFirstAsc SubTaskRow.rank
      (fun r => r.id_dt_task == some tid && rankGtB t.rank r.rank) db.subtasks
    rankBetween t.rank (nextBelow.bind SubTaskRow.rank)
  | none, some b =>
    let prevAbove := findFirstDesc SubTaskRow.rank
      (fun r => r.id_dt_task == some tid && rankLtB b.rank r.rank) db.subtasks
    rankBetween (prevAbove.bind SubTaskRow.rank) b.rank
  | none, none =>
    let mx := findFirstDesc SubTaskRow.rank (fun r => r.id_dt_task == some tid) db.subtasks
    rankAfter (mx.bind SubTaskRow.rank)

/-- One iteration of the `moveSubTask` body over a snapshot (lines
1863-1947): the data path of an attempt whose write is not rejected.  The
collision retry control flow is modelled separately by `retryLoop`. -/
def moveSubTaskOnce (db : Db) (subtaskId : String) (beforeIdIn afterIdIn : Option String) :
    Except MoveErr WriteSub :=
  match normalizeGuid (some subtaskId) with
  | none => .error (.badRequest "Invalid subtaskId")
  | some sid =>
  match db.subtasks.find? (fun s => s.id == sid) with
  | none => .error (.notFound "Subtask not found")
  | some subtask =>
  match subtask.id_dt_task with
  | none => .error (.badRequest "Subtask has no parent task")
  | some tid =>
    if tid.length = 0 then .error (.badRequest "Subtask has no parent task")
    else
      let before := resolvedNeighborSub db sid tid beforeIdIn
      let after := resolvedNeighborSub db sid tid afterIdIn
      let newRank := computeNewRankSub db tid after before
      if subtask.rank == some newRank then
        match db.subtasks.find? (fun s => s.id == sid) with
        | none => .error (.notFound "Subtask not found after lookup")
        | some current => .ok (.noWrite current)
      else .ok (.wrote sid newRank)

/-! ## Write attempt control flow (lines 1451-1458 vs. 1934-1953)

The transactional write may be rejected by the store with a uniqueness
violation on `(containerId, rankKey)` (Prisma error `P2002`, recognized by
`isUniqueConstraintError`, lines 2354-2361).  The per-attempt outcome of
the try body is abstracted as an oracle `w : Nat → TryOutcome α` indexed
by the attempt counter; the runners below reproduce the exact control flow
around that body. -/

inductive TryOutcome (α : Type) where
  | success (a : α)
  | uniqueViolation
  | otherFailure
deriving DecidableEq

inductive RunErr where
  | uniquePrisma
  | otherRaised
  | badRequest (msg : String)
deriving DecidableEq

/-- `MAX_RETRY` (line 1894). -/
def MAX_RETRY : Nat := 3

/-- The `for (let attempt = 1; attempt <= MAX_RETRY; attempt++)` loop of
`moveSubTask` (lines 1934-1953), with `remaining = MAX_RETRY + 1 - attempt`
as the structural loop counter: a rejected attempt is retried only while
`attempt < MAX_RETRY` and a `uniqueViolation` was caught; any other error,
or exhaustion, rethrows the caught error itself. -/
def retryLoop {α : Type} (w : Nat → TryOutcome α) (attempt : Nat) : Nat → Except RunErr α
  | 0 => .error (.badRequest "Unable to move subtask")
  | remaining + 1 =>
    match w attempt with
    | .success a => .ok a
    | .uniqueViolation =>
      if attempt < MAX_RETRY then retryLoop w (attempt + 1) remaining
      else .error .uniquePrisma
    | .otherFailure => .error .otherRaised

/-- Write phase of `moveSubTask`: the bounded retry loop started at
attempt 1. -/
def moveSubTaskWritePhase {α : Type} (w : Nat → TryOutcome α) : Except RunErr α :=
  retryLoop w 1 MAX_RETRY

/-- Write phase of `moveTask` (lines 1451-1458): one single
`prisma.dT_TASK.update` with no surrounding try/catch, so the first
attempt's outcome is final and a uniqueness rejection propagates as the
raw store error. -/
def moveTaskWritePhase {α : Type} (w : Nat → TryOutcome α) : Except RunErr α :=
  match w 1 with
  | .success a => .ok a
  | .uniqueViolation => .error .uniquePrisma
  | .otherFailure => .error .otherRaised

/-! ## Section move (lines 2160-2197) and creation ranks -/

inductive WriteSection where
  | wrote (id : String) (rank : String)
deriving DecidableEq

/-- `moveSection(projectId, sectionId, opts)` (lines 2160-2197): neighbor
hints are looked up verbatim within the project, with no true-neighbor
resolution, no self-reference guard, no no-op short circuit and no retry;
the single update is reified as the returned `WriteSection.wrote`. -/
def moveSection (db : Db) (projectId sectionId : String) (beforeIdIn afterIdIn : Option String) :
    Except MoveErr WriteSection :=
  match normalizeGuid (some projectId) with
  | none => .error (.badRequest "Invalid projectId")
  | some pid =>
  match normalizeGuid (some sectionId) with
  | none => .error (.badRequest "Invalid sectionId")
  | some sid =>
  match ensureSectionExists db pid sid with
  | .error e => .error e
  | .ok _ =>
    let beforeId := normalizeGuid beforeIdIn
    let afterId := normalizeGuid afterIdIn
    let before := beforeId.bind fun b => db.sections.find? fun s =>
      s.id == b && s.id_dt_project == pid
    let after := afterId.bind fun a => db.sections.find? fun s =>
      s.id == a && s.id_dt_project == pid
    let newRank := rankBetween (after.map SectionRow.rank) (before.map SectionRow.rank)
    .ok (.wrote sid newRank)

/-- Rank decision of `createTask` (lines 997-1015): `last` is the rank of
the highest-ranked row of the destination container if one exists;
`!last || !last.rank` falls back to `rankFirst()`. -/
def createTaskRank (last : Option (Option String)) : String :=
  match last with
  | none => rankFirst
  | some none => rankFirst
  | some (some s) => if s.length = 0 then rankFirst else rankAfter (some s)

/-- `createTask` rank assignment over a snapshot (lines 988-1035; the
response shaping around the insert is omitted). -/
def createTask (db : Db) (projectId : String) (sect : Option String) :
    Except MoveErr String :=
  if db.projects.contains projectId then
    let last := findFirstDesc TaskRow.rank
      (fun t => t.id_dt_project == projectId && t.id_dt_section == sect) db.tasks
    .ok (createTaskRank (last.map TaskRow.rank))
  else .error (.notFound "Project not found")

/-- Initial rank decision of `createSection` (line 2097):
`last ? rankAfter(last.rank) : '8888888888888888'`. -/
def createSectionRank (last : Option String) : String :=
  match last with
  | none => "8888888888888888"
  | some r => rankAfter (some r)

/-- Decimal digit character test (code points 48-57). -/
def isDigitB (c : Char) : Bool := 48 ≤ c.toNat && c.toNat ≤ 57

/-- All characters of a string are decimal digits. -/
def digitStrB (s : String) : Bool := s.data.all isDigitB

/-! ## Arithmetic facts about the codec -/

theorem MAX_eq : MAX = 10 ^ WIDTH - 1 := by decide

theorem digitVal_le_of_isDigitB {c : Char} (h : isDigitB c = true) : digitVal c ≤ 9 := by
  simp only [isDigitB, Bool.and_eq_true, decide_eq_true_eq] at h
  simp only [digitVal]
  omega

theorem isDigitB_digitChar (d : Nat) : isDigitB (digitChar d) = true := by
  unfold digitChar
  split <;> decide

theorem digitVal_digitChar {d : Nat} (h : d < 10) : digitVal (digitChar d) = d := by
  interval_cases d <;> decide

theorem foldDigits_append (a : Nat) (l₁ l₂ : List Char) :
    foldDigits a (l₁ ++ l₂) = foldDigits (foldDigits a l₁) l₂ := by
  simp [foldDigits, List.foldl_append]

theorem foldDigits_replicate_zero (k : Nat) : foldDigits 0 (List.replicate k '0') = 0 := by
  induction k with
  | zero => rfl
  | succ k ih => simpa [foldDigits, List.replicate_succ] using ih

theorem foldDigits_lt {l : List Char} (h : ∀ c ∈ l, isDigitB c = true) :
    ∀ a, foldDigits a l < (a + 1) * 10 ^ l.length := by
  induction l with
  | nil => intro a; simp [foldDigits]
  | cons c l ih =>
    intro a
    have hc : digitVal c ≤ 9 := digitVal_le_of_isDigitB (h c (by simp))
    have hrec := ih (fun x hx => h x (by simp [hx])) (a * 10 + digitVal c)
    have : foldDigits (a * 10 + digitVal c) l < (a + 1) * 10 ^ (c :: l).length := by
      calc foldDigits (a * 10 + digitVal c) l
          < (a * 10 + digitVal c + 1) * 10 ^ l.length := hrec
        _ ≤ ((a + 1) * 10) * 10 ^ l.length := by
            have : a * 10 + digitVal c + 1 ≤ (a + 1) * 10 := by omega
            exact Nat.mul_le_mul_right _ this
        _ = (a + 1) * 10 ^ (c :: l).length := by
            simp [List.length_cons, pow_succ]
            ring
    simpa [foldDigits] using this

theorem natToDigitsAux_spec : ∀ fuel n, n < fuel →
    (∀ c ∈ natToDigitsAux fuel n, isDigitB c = true) ∧
    1 ≤ (natToDigitsAux fuel n).length ∧
    ∀ a, foldDigits a (natToDigitsAux fuel n) =
      a * 10 ^ (natToDigitsAux fuel n).length + n := by
  intro fuel
  induction fuel with
  | zero => intro n hn; omega
  | succ fuel ih =>
    intro n hn
    have hsingle : ∀ (m : Nat) (c : Char), foldDigits m [c] = m * 10 + digitVal c :=
      fun _ _ => rfl
    by_cases h10 : n < 10
    · have h1 : natToDigitsAux (fuel + 1) n = [digitChar n] := by
        simp [natToDigitsAux, h10]
      refine ⟨?_, ?_, ?_⟩
      · intro c hc
        rw [h1] at hc
        simp at hc
        subst hc
        exact isDigitB_digitChar _
      · rw [h1]; simp
      · intro a
        rw [h1, hsingle, digitVal_digitChar h10]
        simp
    · have hdiv : n / 10 < fuel := by omega
      obtain ⟨hdig, hlen, hval⟩ := ih (n / 10) hdiv
      have heq : natToDigitsAux (fuel + 1) n =
          natToDigitsAux fuel (n / 10) ++ [digitChar (n % 10)] := by
        simp [natToDigitsAux, h10]
      refine ⟨?_, ?_, ?_⟩
      · intro c hc
        rw [heq] at hc
        rcases List.mem_append.mp hc with h | h
        · exact hdig c h
        · simp at h; subst h; exact isDigitB_digitChar _
      · rw [heq]; simp
      · intro a
        rw [heq, foldDigits_append, hval a, hsingle,
          digitVal_digitChar (Nat.mod_lt _ (by norm_num : (0:Nat) < 10))]
        have hdm : n / 10 * 10 + n % 10 = n := by omega
        have hlenapp : (natToDigitsAux fuel (n / 10) ++ [digitChar (n % 10)]).length =
            (natToDigitsAux fuel (n / 10)).length + 1 := by simp
        rw [hlenapp]
        calc (a * 10 ^ (natToDigitsAux fuel (n / 10)).length + n / 10) * 10 + n % 10
            = a * (10 ^ (natToDigitsAux fuel (n / 10)).length * 10) +
                (n / 10 * 10 + n % 10) := by ring
          _ = a * 10 ^ ((natToDigitsAux fuel (n / 10)).length + 1) + n := by
              rw [hdm, pow_succ]

theorem natToDigits_digits (n : Nat) : ∀ c ∈ natToDigits n, isDigitB c = true :=
  (natToDigitsAux_spec (n + 1) n (Nat.lt_succ_self n)).1

theorem natToDigits_pos (n : Nat) : 1 ≤ (natToDigits n).length :=
  (natToDigitsAux_spec (n + 1) n (Nat.lt_succ_self n)).2.1

theorem foldDigits_natToDigits (n a : Nat) :
    foldDigits a (natToDigits n) = a * 10 ^ (natToDigits n).length + n :=
  (natToDigitsAux_spec (n + 1) n (Nat.lt_succ_self n)).2.2 a

theorem natToDigitsAux_length_le : ∀ fuel n k, n < fuel → 1 ≤ k → n < 10 ^ k →
    (natToDigitsAux fuel n).length ≤ k := by
  intro fuel
  induction fuel with
  | zero => intro n k hn; omega
  | succ fuel ih =>
    intro n k hn hk hnk
    by_cases h10 : n < 10
    · simpa [natToDigitsAux, h10] using hk
    · have hk2 : 2 ≤ k := by
        by_contra hlt
        have : k = 1 := by omega
        subst this
        simp at hnk
        omega
      have hdiv : n / 10 < fuel := by omega
      have hdivk : n / 10 < 10 ^ (k - 1) := by
        have h1 : 10 ^ (k - 1) * 10 = 10 ^ k := by
          rw [← pow_succ]
          congr 1
          omega
        have := (Nat.div_lt_iff_lt_mul (by norm_num : 0 < 10)).mpr (h1 ▸ hnk)
        exact this
      have := ih (n / 10) (k - 1) hdiv (by omega) hdivk
      simp only [natToDigitsAux, h10, if_false, List.length_append, List.length_cons,
        List.length_nil]
      omega

theorem natToDigits_length_le {n k : Nat} (hk : 1 ≤ k) (h : n < 10 ^ k) :
    (natToDigits n).length ≤ k :=
  natToDigitsAux_length_le (n + 1) n k (Nat.lt_succ_self n) hk h

theorem pad_length (n : Nat) : (pad n).length = WIDTH := by
  unfold pad
  by_cases h : (natToDigits n).length ≥ WIDTH
  · simp only [h, if_true]
    show (List.drop _ _).length = WIDTH
    simp [List.length_drop]
    omega
  · simp only [h, if_false]
    show (List.replicate _ '0' ++ _).length = WIDTH
    simp [List.length_append, List.length_replicate]
    omega

theorem pad_digits (n : Nat) : ∀ c ∈ (pad n).data, isDigitB c = true := by
  unfold pad
  by_cases h : (natToDigits n).length ≥ WIDTH
  · simp only [h, if_true]
    intro c hc
    exact natToDigits_digits n c (List.drop_subset _ _ hc)
  · simp only [h, if_false]
    intro c hc
    rcases List.mem_append.mp hc with h' | h'
    · have := List.eq_of_mem_replicate h'
      subst this; decide
    · exact natToDigits_digits n c h'

theorem strToNat_pad {n : Nat} (h : n < 10 ^ WIDTH) : strToNat (pad n) = n := by
  have hlen : (natToDigits n).length ≤ WIDTH :=
    natToDigits_length_le (by norm_num [WIDTH]) h
  unfold pad
  by_cases hge : (natToDigits n).length ≥ WIDTH
  · have hw : (natToDigits n).length = WIDTH := le_antisymm hlen hge
    simp only [hge, if_true]
    show foldDigits 0 (List.drop _ _) = n
    rw [hw, Nat.sub_self, List.drop_zero]
    simpa using foldDigits_natToDigits n 0
  · simp only [hge, if_false]
    show foldDigits 0 (List.replicate _ '0' ++ _) = n
    rw [foldDigits_append, foldDigits_replicate_zero]
    simpa using foldDigits_natToDigits n 0

theorem strToNat_lt {s : String} (hlen : s.length = WIDTH)
    (hdig : ∀ c ∈ s.data, isDigitB c = true) : strToNat s < 10 ^ WIDTH := by
  have := foldDigits_lt hdig 0
  have hl : s.data.length = WIDTH := hlen
  simpa [strToNat, hl] using this

theorem strToNat_pad_le (n : Nat) : strToNat (pad n) ≤ MAX := by
  have := strToNat_lt (pad_length n) (pad_digits n)
  rw [MAX_eq]
  omega

/-- The core betweenness fact about `mid`: with non-adjacent in-range
boundaries the floor midpoint is strictly between them. -/
theorem mid_between {a b : Nat} (h1 : a + 1 < b) (h2 : b ≤ MAX) :
    a < strToNat (mid a b) ∧ strToNat (mid a b) < b := by
  have hab : ¬ b ≤ a := by omega
  have hm1 : a < (a + b) / 2 := by omega
  have hm2 : (a + b) / 2 < b := by omega
  have hmlt : (a + b) / 2 < 10 ^ WIDTH := by
    have := MAX_eq
    omega
  unfold mid
  simp only [hab, if_false]
  have hcond : ¬ ((a + b) / 2 = a ∨ (a + b) / 2 = b) := by omega
  simp only [hcond, if_false]
  rw [strToNat_pad hmlt]
  exact ⟨hm1, hm2⟩

/-- In the adjacent / precision-exhausted case `mid` bumps to `lower + 1`. -/
theorem mid_adjacent {a b : Nat} (hab : a < b)
    (h : (a + b) / 2 = a ∨ (a + b) / 2 = b) : mid a b = pad (a + 1) := by
  have hba : ¬ b ≤ a := by omega
  unfold mid
  simp only [hba, if_false, h, if_true]

/-! ## Order facts about the store's rank comparison -/

theorem lexLtB_irrefl : ∀ l : List Char, lexLtB l l = false := by
  intro l
  induction l with
  | nil => rfl
  | cons c l ih => simp [lexLtB, ih]

theorem lexLtB_trans : ∀ a b c : List Char,
    lexLtB a b = true → lexLtB b c = true → lexLtB a c = true := by
  intro a
  induction a with
  | nil =>
    intro b c hab hbc
    cases b with
    | nil => simp [lexLtB] at hab
    | cons y ys =>
      cases c with
      | nil => simp [lexLtB] at hbc
      | cons z zs => simp [lexLtB]
  | cons x xs ih =>
    intro b c hab hbc
    cases b with
    | nil => simp [lexLtB] at hab
    | cons y ys =>
      cases c with
      | nil => simp [lexLtB] at hbc
      | cons z zs =>
        simp only [lexLtB] at hab hbc ⊢
        by_cases hxy : x.toNat < y.toNat
        · by_cases hyz : y.toNat < z.toNat
          · simp [show x.toNat < z.toNat by omega]
          · simp only [hyz, if_false] at hbc
            by_cases hzy : z.toNat < y.toNat
            · simp [hzy] at hbc
            · simp [show x.toNat < z.toNat by omega]
        · simp only [hxy, if_false] at hab
          by_cases hyx : y.toNat < x.toNat
          · simp [hyx] at hab
          · simp only [hyx, if_false] at hab
            by_cases hyz : y.toNat < z.toNat
            · simp [show x.toNat < z.toNat by omega]
            · simp only [hyz, if_false] at hbc
              by_cases hzy : z.toNat < y.toNat
              · simp [hzy] at hbc
              · simp only [hzy, if_false] at hbc
                have hxz : ¬ x.toNat < z.toNat := by omega
                have hzx : ¬ z.toNat < x.toNat := by omega
                simp only [hxz, hzx, if_false]
                exact ih ys zs hab hbc

theorem rankAscBeforeB_irrefl (a : Option String) : rankAscBeforeB a a = false := by
  cases a with
  | none => rfl
  | some s => simpa [rankAscBeforeB, strLtB] using lexLtB_irrefl s.data

theorem rankAscBeforeB_trans {a b c : Option String}
    (hab : rankAscBeforeB a b = true) (hbc : rankAscBeforeB b c = true) :
    rankAscBeforeB a c = true := by
  cases a <;> cases b <;> cases c <;>
    simp_all [rankAscBeforeB, strLtB] <;>
    exact lexLtB_trans _ _ _ hab hbc

theorem rankDescBeforeB_irrefl (a : Option String) : rankDescBeforeB a a = false := by
  cases a with
  | none => rfl
  | some s => simpa [rankDescBeforeB, strLtB] using lexLtB_irrefl s.data

theorem rankDescBeforeB_trans {a b c : Option String}
    (hab : rankDescBeforeB a b = true) (hbc : rankDescBeforeB b c = true) :
    rankDescBeforeB a c = true := by
  cases a <;> cases b <;> cases c <;>
    simp_all [rankDescBeforeB, strLtB] <;>
    exact lexLtB_trans _ _ _ hbc hab

theorem firstBy_foldl_mem {α : Type} (before : α → α → Bool) :
    ∀ (l : List α) (acc : Option α) (m : α),
      l.foldl (fun acc r =>
        match acc with
        | none => some r
        | some m0 => if before r m0 then some r else acc) acc = some m →
      acc = some m ∨ m ∈ l := by
  intro l
  induction l with
  | nil => intro acc m h; exact Or.inl h
  | cons r l ih =>
    intro acc m h
    simp only [List.foldl_cons] at h
    rcases ih _ m h with h' | h'
    · cases acc with
      | none =>
        simp at h'
        exact Or.inr (by simp [h'])
      | some m0 =>
        by_cases hb : before r m0 = true
        · simp [hb] at h'
          exact Or.inr (by simp [h'])
        · simp [hb] at h'
          exact Or.inl (by simp [h'])
    · exact Or.inr (List.mem_cons_of_mem _ h')

theorem firstBy_mem {α : Type} (before : α → α → Bool) (l : List α) (m : α)
    (h : firstBy before l = some m) : m ∈ l := by
  rcases firstBy_foldl_mem before l none m h with h' | h'
  · cases h'
  · exact h'

theorem firstBy_foldl_min {α : Type} (before : α → α → Bool)
    (htrans : ∀ a b c, before a b = true → before b c = true → before a c = true)
    (hirrefl : ∀ a, before a a = false) :
    ∀ (l : List α) (acc : Option α) (m : α),
      l.foldl (fun acc r =>
        match acc with
        | none => some r
        | some m0 => if before r m0 then some r else acc) acc = some m →
      (∀ x ∈ l, before x m = false) ∧
      (∀ m0, acc = some m0 → m = m0 ∨ before m m0 = true) := by
  intro l
  induction l with
  | nil =>
    intro acc m h
    refine ⟨by simp, fun m0 hm0 => ?_⟩
    rw [hm0] at h
    injection h with h2
    exact Or.inl h2.symm
  | cons r l ih =>
    intro acc m h
    simp only [List.foldl_cons] at h
    have notBefore : ∀ u v : α, (v = u ∨ before v u = true) → before u v = false := by
      intro u v huv
      rcases huv with rfl | huv
      · exact hirrefl _
      · by_contra hx
        have hx' : before u v = true := by
          cases hrm : before u v
          · exact absurd hrm hx
          · rfl
        have := htrans _ _ _ hx' huv
        rw [hirrefl u] at this
        cases this
    cases acc with
    | none =>
      obtain ⟨hall, hacc⟩ := ih (some r) m h
      refine ⟨?_, fun m1 hm1 => by simp at hm1⟩
      intro x hx
      rcases List.mem_cons.mp hx with heq | hx
      · subst heq
        exact notBefore _ _ (hacc _ rfl)
      · exact hall x hx
    | some m0 =>
      by_cases hb : before r m0 = true
      · have hred : List.foldl (fun acc r =>
            match acc with
            | none => some r
            | some m0 => if before r m0 then some r else acc) (some r) l = some m := by
          simpa [hb] using h
        obtain ⟨hall, hacc⟩ := ih (some r) m hred
        refine ⟨?_, ?_⟩
        · intro x hx
          rcases List.mem_cons.mp hx with heq | hx
          · subst heq
            exact notBefore _ _ (hacc _ rfl)
          · exact hall x hx
        · intro m1 hm1
          injection hm1 with hm1
          subst hm1
          rcases hacc r rfl with rfl | hmr
          · exact Or.inr hb
          · exact Or.inr (htrans _ _ _ hmr hb)
      · have hred : List.foldl (fun acc r =>
            match acc with
            | none => some r
            | some m0 => if before r m0 then some r else acc) (some m0) l = some m := by
          simpa [hb] using h
        obtain ⟨hall, hacc⟩ := ih (some m0) m hred
        refine ⟨?_, hacc⟩
        intro x hx
        rcases List.mem_cons.mp hx with rfl | hx
        · rcases hacc m0 rfl with rfl | hmm0
          · simpa using hb
          · by_contra hxm
            have hxm' : before x m = true := by
              cases hrm : before x m
              · exact absurd hrm hxm
              · rfl
            have := htrans _ _ _ hxm' hmm0
            rw [this] at hb
            cases hb rfl
        · exact hall x hx

theorem firstBy_min {α : Type} (before : α → α → Bool)
    (htrans : ∀ a b c, before a b = true → before b c = true → before a c = true)
    (hirrefl : ∀ a, before a a = false)
    (l : List α) (m : α) (h : firstBy before l = some m) :
    ∀ x ∈ l, before x m = false :=
  (firstBy_foldl_min before htrans hirrefl l none m h).1

/-! ## Idempotence of `normalizeGuid` -/

theorem toLower_of_hex {c : Char} (h : isHexDigit c = true) :
    isHexDigit (Char.toLower c) = true ∧
    Char.toLower (Char.toLower c) = Char.toLower c ∧
    (Char.toLower c).toNat ≠ 115 := by
  simp only [isHexDigit, Bool.or_eq_true, Bool.and_eq_true, decide_eq_true_eq] at h
  rcases h with (h | h) | h
  · have hcond : ¬(c.toNat ≥ 65 ∧ c.toNat ≤ 90) := by omega
    have hl : Char.toLower c = c := by
      rw [Char.toLower]
      simp [hcond]
    rw [hl]
    refine ⟨?_, hl, by omega⟩
    simp only [isHexDigit, Bool.or_eq_true, Bool.and_eq_true, decide_eq_true_eq]
    omega
  · have hcond : ¬(c.toNat ≥ 65 ∧ c.toNat ≤ 90) := by omega
    have hl : Char.toLower c = c := by
      rw [Char.toLower]
      simp [hcond]
    rw [hl]
    refine ⟨?_, hl, by omega⟩
    simp only [isHexDigit, Bool.or_eq_true, Bool.and_eq_true, decide_eq_true_eq]
    omega
  · have hv : c.toNat = 65 ∨ c.toNat = 66 ∨ c.toNat = 67 ∨ c.toNat = 68 ∨
        c.toNat = 69 ∨ c.toNat = 70 := by omega
    rcases hv with hv | hv | hv | hv | hv | hv <;>
      (have hc : c = Char.ofNat c.toNat := (Char.ofNat_toNat c).symm
       rw [hv] at hc
       subst hc
       exact ⟨by decide, by decide, by decide⟩)

theorem getD_map_toLower (cs : List Char) (i : Nat) (hi : i < cs.length) :
    (cs.map Char.toLower).getD i ' ' = Char.toLower (cs.getD i ' ') := by
  have hi' : i < (cs.map Char.toLower).length := by simpa using hi
  rw [List.getD_eq_getElem _ _ hi', List.getD_eq_getElem _ _ hi, List.getElem_map]

theorem uuidShape_parts {cs : List Char} (h : uuidShape cs = true) :
    cs.length = 36 ∧ ∀ i < 36,
      (i = 8 ∨ i = 13 ∨ i = 18 ∨ i = 23 → cs.getD i ' ' = '-') ∧
      (¬(i = 8 ∨ i = 13 ∨ i = 18 ∨ i = 23) → isHexDigit (cs.getD i ' ') = true) := by
  simp only [uuidShape, Bool.and_eq_true, List.all_eq_true, List.mem_range, beq_iff_eq] at h
  obtain ⟨hlen, hall⟩ := h
  refine ⟨hlen, fun i hi => ?_⟩
  have := hall i hi
  by_cases hd : i = 8 ∨ i = 13 ∨ i = 18 ∨ i = 23
  · have hb : (i == 8 || i == 13 || i == 18 || i == 23) = true := by
      rcases hd with rfl | rfl | rfl | rfl <;> rfl
    rw [if_pos hb] at this
    exact ⟨fun _ => by simpa using this, fun hc => absurd hd hc⟩
  · have hb : (i == 8 || i == 13 || i == 18 || i == 23) = false := by
      simp only [Bool.or_eq_false_iff, beq_eq_false_iff_ne, ne_eq]
      omega
    rw [if_neg (by simp [hb])] at this
    exact ⟨fun hc => absurd hc hd, fun _ => this⟩

theorem uuidShape_of_parts {cs : List Char} (hlen : cs.length = 36)
    (hall : ∀ i < 36,
      (i = 8 ∨ i = 13 ∨ i = 18 ∨ i = 23 → cs.getD i ' ' = '-') ∧
      (¬(i = 8 ∨ i = 13 ∨ i = 18 ∨ i = 23) → isHexDigit (cs.getD i ' ') = true)) :
    uuidShape cs = true := by
  simp only [uuidShape, Bool.and_eq_true, List.all_eq_true, List.mem_range, beq_iff_eq]
  refine ⟨hlen, fun i hi => ?_⟩
  obtain ⟨hdash, hhex⟩ := hall i hi
  by_cases hd : i = 8 ∨ i = 13 ∨ i = 18 ∨ i = 23
  · have hb : (i == 8 || i == 13 || i == 18 || i == 23) = true := by
      rcases hd with rfl | rfl | rfl | rfl <;> rfl
    rw [if_pos hb]
    simpa using hdash hd
  · have hb : (i == 8 || i == 13 || i == 18 || i == 23) = false := by
      simp only [Bool.or_eq_false_iff, beq_eq_false_iff_ne, ne_eq]
      omega
    rw [if_neg (by simp [hb])]
    exact hhex hd

theorem uuidShape_map_toLower {cs : List Char} (h : uuidShape cs = true) :
    uuidShape (cs.map Char.toLower) = true := by
  obtain ⟨hlen, hall⟩ := uuidShape_parts h
  refine uuidShape_of_parts (by simpa using hlen) (fun i hi => ?_)
  have hgd := getD_map_toLower cs i (by omega)
  obtain ⟨hdash, hhex⟩ := hall i hi
  constructor
  · intro hd
    rw [hgd, hdash hd]
    decide
  · intro hd
    rw [hgd]
    exact (toLower_of_hex (hhex hd)).1

theorem map_toLower_idem_of_uuidShape {cs : List Char} (h : uuidShape cs = true) :
    (cs.map Char.toLower).map Char.toLower = cs.map Char.toLower := by
  obtain ⟨hlen, hall⟩ := uuidShape_parts h
  rw [List.map_map]
  apply List.map_congr_left
  intro c hc
  obtain ⟨i, hi, hgi⟩ := List.mem_iff_getElem.mp hc
  have hgd : cs.getD i ' ' = c := by
    rw [List.getD_eq_getElem _ _ hi, hgi]
  obtain ⟨hdash, hhex⟩ := hall i (by omega)
  by_cases hd : i = 8 ∨ i = 13 ∨ i = 18 ∨ i = 23
  · have : c = '-' := by rw [← hgd, hdash hd]
    subst this
    rfl
  · have hhexc : isHexDigit c = true := by rw [← hgd]; exact hhex hd
    exact (toLower_of_hex hhexc).2.1

theorem head_map_toLower_ne_s {cs : List Char} (h : uuidShape cs = true) :
    (cs.map Char.toLower).take 8 ≠ "section-".data := by
  obtain ⟨hlen, hall⟩ := uuidShape_parts h
  intro habs
  cases cs with
  | nil => simp at hlen
  | cons c0 rest =>
    have hhex : isHexDigit c0 = true := by
      have := (hall 0 (by omega)).2 (by omega)
      simpa using this
    have hne := (toLower_of_hex hhex).2.2
    rw [show "section-".data = ['s', 'e', 'c', 't', 'i', 'o', 'n', '-'] from rfl] at habs
    simp only [List.map_cons, List.take_succ_cons] at habs
    have hs : Char.toLower c0 = 's' := (List.cons_eq_cons.mp habs).1
    exact hne (by rw [hs]; decide)

/-- A successful output of `normalizeGuid` is a fixed point of it, so the
re-normalization inside `ensureSectionExists` cannot fail. -/
theorem normalizeGuid_idem {x : Option String} {g : String}
    (h : normalizeGuid x = some g) : normalizeGuid (some g) = some g := by
  unfold normalizeGuid at h
  match hstrip : stripSectionPfx x with
  | none => rw [hstrip] at h; cases h
  | some raw =>
    rw [hstrip] at h
    have h2 : (if (raw.length == 0 || !uuidShape raw.data) = true then (none : Option String)
        else some (⟨raw.data.map Char.toLower⟩ : String)) = some g := h
    clear h
    by_cases hcond : (raw.length == 0 || !uuidShape raw.data) = true
    · rw [if_pos hcond] at h2; cases h2
    · rw [if_neg hcond] at h2
      have hshape : uuidShape raw.data = true := by
        simp only [Bool.or_eq_true, beq_iff_eq, Bool.not_eq_true'] at hcond
        push_neg at hcond
        have := hcond.2
        simp only [Bool.not_eq_false] at this
        exact this
      have hg : g = ⟨raw.data.map Char.toLower⟩ := by
        injection h2 with h'
        exact h'.symm
      subst hg
      have hglen : (raw.data.map Char.toLower).length = 36 := by
        simpa using (uuidShape_parts hshape).1
      have hshape' : uuidShape (raw.data.map Char.toLower) = true :=
        uuidShape_map_toLower hshape
      have hstrip' : stripSectionPfx (some (⟨raw.data.map Char.toLower⟩ : String)) =
          some ⟨raw.data.map Char.toLower⟩ := by
        show (if (String.mk (raw.data.map Char.toLower)).length = 0 then (none : Option String)
          else if (String.mk (raw.data.map Char.toLower)).data.take 8 = "section-".data
            then some ⟨(String.mk (raw.data.map Char.toLower)).data.drop 8⟩
            else some ⟨raw.data.map Char.toLower⟩) = some ⟨raw.data.map Char.toLower⟩
        rw [if_neg (by show ¬ (raw.data.map Char.toLower).length = 0; omega)]
        rw [if_neg (head_map_toLower_ne_s hshape)]
      have hlenne : ((raw.data.map Char.toLower).length == 0) = false := by
        simp only [beq_eq_false_iff_ne, ne_eq]
        omega
      unfold normalizeGuid
      rw [hstrip']
      show (if ((String.mk (raw.data.map Char.toLower)).length == 0 ||
          !uuidShape (String.mk (raw.data.map Char.toLower)).data) = true then (none : Option String)
        else some ⟨(String.mk (raw.data.map Char.toLower)).data.map Char.toLower⟩) =
        some ⟨raw.data.map Char.toLower⟩
      have hcond' : ((String.mk (raw.data.map Char.toLower)).length == 0 ||
          !uuidShape (String.mk (raw.data.map Char.toLower)).data) = false := by
        show ((raw.data.map Char.toLower).length == 0 || !uuidShape (raw.data.map Char.toLower)) = false
        rw [hlenne, hshape']
        rfl
      rw [if_neg (by rw [hcond']; exact fun h => nomatch h)]
      congr 1
      show (⟨(raw.data.map Char.toLower).map Char.toLower⟩ : String) = _
      rw [map_toLower_idem_of_uuidShape hshape]

deriving instance DecidableEq for Except

/-! ## Concrete scenario data -/

def pidMain : String := "aaaaaaaa-aaaa-aaaa-aaaa-aaaaaaaaaaaa"

def sidMain : String := "bbbbbbbb-bbbb-bbbb-bbbb-bbbbbbbbbbbb"

def tidA : String := "11111111-1111-1111-1111-111111111111"

def tidB : String := "22222222-2222-2222-2222-222222222222"

def tidC : String := "33333333-3333-3333-3333-333333333333"

def tidD : String := "44444444-4444-4444-4444-444444444444"

def stA : String := "55555555-5555-5555-5555-555555555555"

def stB : String := "66666666-6666-6666-6666-666666666666"

def stC : String := "77777777-7777-7777-7777-777777777777"

/-- A project with one section holding tasks A(10) B(20) C(30) D(40) and
three subtasks of task A ranked 10, 20, 30. -/
def demoDb : Db :=
  { projects := [pidMain]
    tasks :=
      [ ⟨tidA, pidMain, some sidMain, some "0000000000000010"⟩
      , ⟨tidB, pidMain, some sidMain, some "0000000000000020"⟩
      , ⟨tidC, pidMain, some sidMain, some "0000000000000030"⟩
      , ⟨tidD, pidMain, some sidMain, some "0000000000000040"⟩ ]
    sections := [⟨sidMain, pidMain, "8888888888888888"⟩]
    subtasks :=
      [ ⟨stA, some tidA, some "0000000000000010"⟩
      , ⟨stB, some tidA, some "0000000000000020"⟩
      , ⟨stC, some tidA, some "0000000000000030"⟩ ] }

/-! ## Further shape lemmas -/

theorem isBlank_pad (n : Nat) : isBlank (some (pad n)) = false := by
  show ((pad n).length == 0) = false
  rw [pad_length]
  decide

theorem toBig_pad {n : Nat} (h : n < 10 ^ WIDTH) : toBig (some (pad n)) = n := by
  show (if (pad n).length = 0 then 0 else strToNat (pad n)) = n
  rw [if_neg (by rw [pad_length]; decide)]
  exact strToNat_pad h

theorem mid_cases (a b : Nat) : ∃ x, mid a b = pad x := by
  unfold mid
  split
  · exact ⟨_, rfl⟩
  · show ∃ x, (if (a + b) / 2 = a ∨ (a + b) / 2 = b then pad (a + 1)
      else pad ((a + b) / 2)) = pad x
    split
    · exact ⟨_, rfl⟩
    · exact ⟨_, rfl⟩

theorem rankBetween_cases (p n : Option String) :
    rankBetween p n = String.mk (List.replicate WIDTH '8') ∨
    ∃ x, rankBetween p n = pad x := by
  unfold rankBetween
  split
  · exact Or.inl rfl
  · split
    · exact Or.inr ⟨_, rfl⟩
    · split
      · exact Or.inr ⟨_, rfl⟩
      · exact Or.inr (mid_cases _ _)

theorem pad_shape (x : Nat) :
    (pad x).length = WIDTH ∧ digitStrB (pad x) = true ∧ strToNat (pad x) ≤ MAX := by
  refine ⟨pad_length x, ?_, strToNat_pad_le x⟩
  simp only [digitStrB, List.all_eq_true]
  exact pad_digits x

theorem rankBetween_shape (p n : Option String) :
    (rankBetween p n).length = WIDTH ∧ digitStrB (rankBetween p n) = true ∧
      strToNat (rankBetween p n) ≤ MAX := by
  rcases rankBetween_cases p n with h | ⟨x, h⟩
  · rw [h]
    refine ⟨by decide, by decide, by decide⟩
  · rw [h]
    exact pad_shape x

/-! ## Claim C3 -/

/-- C3: for all integer key pairs `L < U` within the key range, if they are
not adjacent then the both-boundaries allocation (`rankBetween` on their
encodings, which delegates to `mid`) returns a key strictly between them;
and whenever the floor midpoint `m = (L + U) / 2` equals `L` or `U`
(precision exhausted), `mid` returns `encode(L + 1)`. -/
theorem claim3_between_allocation (L U : Nat) (hLU : L < U) (hU : U ≤ MAX) :
    (U ≠ L + 1 → L < strToNat (mid L U) ∧ strToNat (mid L U) < U) ∧
    ((L + U) / 2 = L ∨ (L + U) / 2 = U → mid L U = pad (L + 1)) ∧
    rankBetween (some (pad L)) (some (pad U)) = mid L U := by
  refine ⟨fun hne => mid_between (by omega) hU, mid_adjacent hLU, ?_⟩
  have hmax := MAX_eq
  have hL16 : L < 10 ^ WIDTH := by omega
  have hU16 : U < 10 ^ WIDTH := by omega
  unfold rankBetween
  rw [isBlank_pad, isBlank_pad]
  simp only [Bool.and_false, Bool.false_eq_true, if_false]
  rw [toBig_pad hL16, toBig_pad hU16]

/-- C3 witness: boundaries 10 and 20 are non-adjacent and the allocated key
lies strictly between them; boundaries 10 and 11 are adjacent and the
allocator bumps to the lower boundary plus one. -/
theorem claim3_between_allocation_witness :
    (10 < strToNat (mid 10 20) ∧ strToNat (mid 10 20) < 20) ∧
    mid 10 11 = pad (10 + 1) :=
  ⟨(claim3_between_allocation 10 20 (by decide) (by decide)).1 (by decide),
   (claim3_between_allocation 10 11 (by decide) (by decide)).2.1 (by decide)⟩

/-! ## Claim C6 -/

/-- C6 counterexample: with both boundaries absent `rankBetween` returns
the constant "8888888888888888" (line 2272), while the 16-digit zero-padded
encoding of `floor(MAX / 2) = floor((10^16 - 1) / 2)` is "4999999999999999";
the two differ, so the returned constant is not `encode(MAX / 2)`. -/
theorem claim6_counterexample :
    rankBetween none none = "8888888888888888" ∧
    pad (MAX / 2) = "4999999999999999" ∧
    ("8888888888888888" : String) ≠ "4999999999999999" :=
  ⟨by decide, by decide, by decide⟩

/-- C6 amended: with both boundaries absent the allocator returns the
constant `'8'.repeat(WIDTH)` = "8888888888888888" (numeric value
8888888888888888), not the encoding of `MAX / 2`. -/
theorem claim6_amended :
    rankBetween none none = String.mk (List.replicate WIDTH '8') ∧
    strToNat (rankBetween none none) = 8888888888888888 :=
  ⟨by decide, by decide⟩

/-! ## Claim C9 -/

/-- A legal input to the allocator: `null` or a decimal string of at most
`WIDTH` digits. -/
def validKeyInput (o : Option String) : Prop :=
  o = none ∨ ∃ s, o = some s ∧ digitStrB s = true ∧ s.length ≤ WIDTH

/-- C9: for every input pair that is `null` or a digit string of at most 16
digits, `rankBetween` — and with it `rankAfter` and `rankFirst` — returns a
string of exactly 16 decimal digits, whose value therefore lies in
`[0, 10^16 - 1]`. -/
theorem claim9_key_shape (p n : Option String)
    (hp : validKeyInput p) (hn : validKeyInput n) :
    ((rankBetween p n).length = WIDTH ∧ digitStrB (rankBetween p n) = true ∧
      strToNat (rankBetween p n) ≤ MAX) ∧
    ((rankAfter p).length = WIDTH ∧ digitStrB (rankAfter p) = true ∧
      strToNat (rankAfter p) ≤ MAX) ∧
    (rankFirst.length = WIDTH ∧ digitStrB rankFirst = true ∧
      strToNat rankFirst ≤ MAX) :=
  ⟨rankBetween_shape p n, rankBetween_shape p none, by decide, by decide, by decide⟩

/-- C9 witness: instantiation at `prev = "42"`, `next = null`. -/
theorem claim9_key_shape_witness :
    ((rankBetween (some "42") none).length = WIDTH ∧
      digitStrB (rankBetween (some "42") none) = true ∧
      strToNat (rankBetween (some "42") none) ≤ MAX) ∧
    ((rankAfter (some "42")).length = WIDTH ∧
      digitStrB (rankAfter (some "42")) = true ∧
      strToNat (rankAfter (some "42")) ≤ MAX) ∧
    (rankFirst.length = WIDTH ∧ digitStrB rankFirst = true ∧
      strToNat rankFirst ≤ MAX) :=
  claim9_key_shape (some "42") none
    (Or.inr ⟨"42", rfl, by decide, by decide⟩) (Or.inl rfl)

/-! ## Claim C8 -/

def emptySectionDb : Db :=
  { projects := [pidMain]
    tasks := []
    sections := [⟨sidMain, pidMain, "8888888888888888"⟩]
    subtasks := [] }

def oneTaskDb : Db :=
  { emptySectionDb with
    tasks := [⟨tidA, pidMain, some sidMain, some "0000000000000001"⟩] }

def threeTaskDb : Db :=
  { emptySectionDb with
    tasks :=
      [ ⟨tidA, pidMain, some sidMain, some "0000000000000001"⟩
      , ⟨tidB, pidMain, some sidMain, some "5000000000000000"⟩
      , ⟨tidC, pidMain, some sidMain, some "7499999999999999"⟩ ] }

/-- C8 counterexample: `createTask` on an empty section assigns the first
task the key `rankFirst()` = "0000000000000001" (lines 1010-1011), which is
not the "8888888888888888" the claim states. -/
theorem claim8_counterexample :
    createTask emptySectionDb pidMain (some sidMain) = .ok "0000000000000001" ∧
    ("0000000000000001" : String) ≠ "8888888888888888" :=
  ⟨by decide, by decide⟩

/-- C8 amended: the first task in an empty section is keyed
"0000000000000001"; appending a second task with no neighbors yields
"5000000000000000", strictly greater than the first key; moving a third
task between them (`afterId` = first, `beforeId` = second) yields
"2500000000000000", strictly between the first two keys.  The centered
constant "8888888888888888" is what `createSection` assigns a first
section, not what `createTask` assigns a first task. -/
theorem claim8_amended :
    createTask emptySectionDb pidMain (some sidMain) = .ok "0000000000000001" ∧
    createTask oneTaskDb pidMain (some sidMain) = .ok "5000000000000000" ∧
    strToNat "0000000000000001" < strToNat "5000000000000000" ∧
    moveTask threeTaskDb pidMain tidC ⟨none, some tidB, some tidA⟩ =
      .ok (.wrote tidC (some sidMain) "2500000000000000") ∧
    strToNat "0000000000000001" < strToNat "2500000000000000" ∧
    strToNat "2500000000000000" < strToNat "5000000000000000" ∧
    createSectionRank none = "8888888888888888" :=
  ⟨by decide, by decide, by decide, by decide, by decide, by decide, by decide⟩

/-! ## Claim C2 -/

/-- C2: with the `targetSectionId` field absent the destination container
is the task's current section (pure in-place reorder), and with the field
present as `null` — or as a UI sentinel that the controller normalizes to
`null` — the task is written to the unlocated bucket (`section = null`)
even if it previously belonged to a section.  The two `moveTask` conjuncts
run the full move on a task that currently lives in a section. -/
theorem claim2_sentinel :
    (∀ current : Option String, destSectionOf none current = current) ∧
    (∀ current : Option String, destSectionOf (some none) current = none) ∧
    controllerTargetNorm (some (some "unlocated")) = some none ∧
    controllerTargetNorm (some (some "null")) = some none ∧
    moveTask demoDb pidMain tidA ⟨none, none, none⟩ =
      .ok (.wrote tidA (some sidMain) "5000000000000019") ∧
    moveTask demoDb pidMain tidA ⟨some none, none, none⟩ =
      .ok (.wrote tidA none "8888888888888888") :=
  ⟨fun _ => rfl, fun _ => rfl, by decide, by decide, by decide, by decide⟩

/-! ## Claim C1 -/

/-- C1 counterexample: a task move whose transactional write is rejected
with a uniqueness conflict is not retried — with attempt 1 rejected and
every later attempt bound to succeed, the task write phase still fails,
propagating the raw store error (`moveTask`, lines 1451-1458, has no
retry loop); and a subtask move that exhausts its retries rethrows the
raw uniqueness error rather than failing with a `Conflict` error kind. -/
theorem claim1_counterexample :
    moveTaskWritePhase (fun attempt =>
      if attempt = 1 then .uniqueViolation else .success (0 : Nat)) =
      .error .uniquePrisma ∧
    moveSubTaskWritePhase (fun _ => (.uniqueViolation : TryOutcome Nat)) =
      .error .uniquePrisma :=
  ⟨by decide, by decide⟩

/-- C1 amended: only subtask moves carry the bounded retry: an attempt
rejected with a uniqueness conflict is recomputed and retried while the
attempt counter is below `MAX_RETRY = 3` (the loop body re-runs
`computeNewRank`, re-querying the boundary lookups, though the named
neighbor rows and the moved row were fetched once before the loop), and
exhausting the retries rethrows the underlying uniqueness error itself
rather than a `Conflict` error; a task move performs exactly one write
attempt, returning its success and propagating its uniqueness rejection
without any retry. -/
theorem claim1_amended :
    (∀ a : Nat, moveSubTaskWritePhase
      (fun attempt => if attempt < MAX_RETRY then .uniqueViolation else .success a) =
      .ok a) ∧
    (∀ (w : Nat → TryOutcome Nat) (a : Nat), w 1 = .success a →
      moveSubTaskWritePhase w = .ok a) ∧
    moveSubTaskWritePhase (fun _ => (.uniqueViolation : TryOutcome Nat)) =
      .error .uniquePrisma ∧
    (∀ (w : Nat → TryOutcome Nat) (a : Nat), w 1 = .success a →
      moveTaskWritePhase w = .ok a) ∧
    (∀ w : Nat → TryOutcome Nat, w 1 = .uniqueViolation →
      moveTaskWritePhase w = .error .uniquePrisma) := by
  refine ⟨fun a => rfl, ?_, by decide, ?_, ?_⟩
  · intro w a h
    simp [moveSubTaskWritePhase, MAX_RETRY, retryLoop, h]
  · intro w a h
    simp [moveTaskWritePhase, h]
  · intro w h
    simp [moveTaskWritePhase, h]

/-- C1 amended witness: the subtask retry loop succeeding on its final
allowed attempt, and the single-shot task write succeeding first try. -/
theorem claim1_amended_witness :
    moveSubTaskWritePhase
      (fun attempt => if attempt < MAX_RETRY then .uniqueViolation else .success (7 : Nat)) =
      .ok 7 ∧
    moveTaskWritePhase (fun _ => .success (5 : Nat)) = .ok 5 :=
  ⟨claim1_amended.1 7, claim1_amended.2.2.2.1 (fun _ => .success 5) 5 rfl⟩

/-! ## Claim C10 -/

/-- The rank contributed by a `moveSection` neighbor hint: the hint is
normalized and the named row is looked up verbatim within the project;
an invalid hint, or one naming no section of this project, contributes
`null` (`before?.rank ?? null`, line 2191). -/
def sectionHintRank (db : Db) (pid : String) (hint : Option String) : Option String :=
  ((normalizeGuid hint).bind fun h =>
    db.sections.find? fun s => s.id == h && s.id_dt_project == pid).map SectionRow.rank

theorem ensureSectionExists_eq_ok {db : Db} {pid sid : String} {sec : SectionRow}
    (hp : normalizeGuid (some pid) = some pid)
    (hs : normalizeGuid (some sid) = some sid)
    (hsec : findSection db sid pid = some sec) :
    ensureSectionExists db pid sid = .ok sec := by
  unfold ensureSectionExists
  simp only [hp, hs, hsec]

/-- C10: a section move persists exactly
`rankBetween(after.rank ?? null, before.rank ?? null)` computed from the
verbatim hint rows of the project — a hint naming a row outside the
project contributes `null` rather than an error, the moved section is not
excluded when named as its own neighbor, and the update is issued
unconditionally in a single attempt (`WriteSection.wrote`), even when the
computed rank equals the section's current rank, as the two concrete
conjuncts show. -/
theorem claim10_moveSection (db : Db) (pj sc : String) (bId aId : Option String)
    (pid sid : String) (sec : SectionRow)
    (hpid : normalizeGuid (some pj) = some pid)
    (hsid : normalizeGuid (some sc) = some sid)
    (hsec : findSection db sid pid = some sec) :
    moveSection db pj sc bId aId =
      .ok (.wrote sid (rankBetween (sectionHintRank db pid aId)
        (sectionHintRank db pid bId))) ∧
    (∀ h, normalizeGuid bId = some h →
      (∀ s ∈ db.sections, ¬(s.id = h ∧ s.id_dt_project = pid)) →
      sectionHintRank db pid bId = none) ∧
    (aId = some sc → sectionHintRank db pid aId = some sec.rank) ∧
    moveSection demoDb pidMain sidMain none none =
      .ok (.wrote sidMain "8888888888888888") ∧
    (demoDb.sections.find? fun s => s.id == sidMain).map SectionRow.rank =
      some "8888888888888888" ∧
    moveSection demoDb pidMain sidMain none (some sidMain) =
      .ok (.wrote sidMain "9444444444444443") := by
  refine ⟨?_, ?_, ?_, by decide, by decide, by decide⟩
  · unfold moveSection
    simp only [hpid, hsid,
      ensureSectionExists_eq_ok (normalizeGuid_idem hpid) (normalizeGuid_idem hsid) hsec]
    rfl
  · intro h hnorm hnone
    unfold sectionHintRank
    rw [hnorm]
    have hfind : (db.sections.find? fun s => s.id == h && s.id_dt_project == pid) = none := by
      rw [List.find?_eq_none]
      intro s hs
      have := hnone s hs
      simp only [Bool.and_eq_true, beq_iff_eq]
      tauto
    simp [hfind]
  · intro ha
    subst ha
    unfold sectionHintRank
    rw [hsid]
    have hfind : (db.sections.find? fun s => s.id == sid && s.id_dt_project == pid) =
        some sec := hsec
    simp [hfind]

/-- C10 witness: the general equality instantiated on the demo project. -/
theorem claim10_moveSection_witness :
    moveSection demoDb pidMain sidMain none (some sidMain) =
      .ok (.wrote sidMain (rankBetween (sectionHintRank demoDb pidMain (some sidMain))
        (sectionHintRank demoDb pidMain none))) :=
  (claim10_moveSection demoDb pidMain sidMain none (some sidMain) pidMain sidMain
    ⟨sidMain, pidMain, "8888888888888888"⟩ (by decide) (by decide) (by decide)).1

/-! ## Claim C7 -/

/-- C7 counterexample: a task-move request carrying the explicit
`targetSectionId` value `"not-a-uuid"` — a supplied id for which certainly
no section exists — does not fail with `NotFound`: the malformed value is
coerced to `null` by `normalizeGuid`, the existence check is skipped, and
the move is applied, writing the previously sectioned task into the
unlocated bucket. -/
theorem claim7_counterexample :
    moveTask demoDb pidMain tidB ⟨some (some "not-a-uuid"), none, none⟩ =
      .ok (.wrote tidB none "8888888888888888") := by decide

/-- C7 amended: an explicitly supplied `targetSectionId` is normalized, not
validated: if it normalizes to a well-formed UUID `d`, the engine verifies
that section `d` exists in the same project and fails with `NotFound`
before any write otherwise; but a supplied value that fails UUID validation
normalizes to `null`, so the move proceeds into the unlocated bucket with
no error instead of failing. -/
theorem claim7_amended (db : Db) (pj tk : String) (body : MoveTaskBody)
    (pid tid : String) (task : TaskRow) (v : Option String) (d : String)
    (hpid : normalizeGuid (some pj) = some pid)
    (htid : normalizeGuid (some tk) = some tid)
    (htask : db.tasks.find? (fun t => t.id == tid && t.id_dt_project == pid) = some task)
    (htgt : body.targetSectionId = some v) :
    (normalizeGuid v = some d → findSection db d pid = none →
      moveTask db pj tk body = .error (.notFound "Section not found in project")) ∧
    (normalizeGuid v = none →
      destSectionOf body.targetSectionId task.id_dt_section = none) := by
  constructor
  · intro hd hfind
    have he : ensureSectionExists db pid d =
        .error (.notFound "Section not found in project") := by
      unfold ensureSectionExists
      simp only [normalizeGuid_idem hpid, normalizeGuid_idem hd, hfind]
    unfold moveTask
    simp only [hpid, htid, htask, htgt, destSectionOf, hd, he, Except.map]
  · intro hd
    rw [htgt]
    simp [destSectionOf, hd]

/-- C7 amended witness: a well-formed id naming no section of the project
makes the move fail with `NotFound`; the malformed value `"zzz"` is coerced
to the unlocated bucket. -/
theorem claim7_amended_witness :
    moveTask demoDb pidMain tidA
      ⟨some (some "cccccccc-cccc-cccc-cccc-cccccccccccc"), none, none⟩ =
      .error (.notFound "Section not found in project") ∧
    destSectionOf (some (some "zzz")) (some sidMain) = none :=
  ⟨(claim7_amended demoDb pidMain tidA
      ⟨some (some "cccccccc-cccc-cccc-cccc-cccccccccccc"), none, none⟩ pidMain tidA
      ⟨tidA, pidMain, some sidMain, some "0000000000000010"⟩
      (some "cccccccc-cccc-cccc-cccc-cccccccccccc") "cccccccc-cccc-cccc-cccc-cccccccccccc"
      (by decide) (by decide) (by decide) rfl).1 (by decide) (by decide),
   (claim7_amended demoDb pidMain tidA ⟨some (some "zzz"), none, none⟩ pidMain tidA
      ⟨tidA, pidMain, some sidMain, some "0000000000000010"⟩ (some "zzz")
      "unused"
      (by decide) (by decide) (by decide) rfl).2 (by decide)⟩

/-! ## Claim C5 -/

/-- C5: the no-op short circuit (Invariant I3) for both task and subtask
moves: whenever the destination container is unchanged and the freshly
computed key equals the row's current rank key, the operation returns the
currently stored row (`WriteTask.noWrite` / `WriteSub.noWrite`) and issues
no update. -/
theorem claim5_noop :
    (∀ (db : Db) (pj tk : String) (body : MoveTaskBody) (pid tid : String) (task : TaskRow),
      normalizeGuid (some pj) = some pid →
      normalizeGuid (some tk) = some tid →
      db.tasks.find? (fun t => t.id == tid && t.id_dt_project == pid) = some task →
      db.tasks.find? (fun t => t.id == tid) = some task →
      (∀ d, task.id_dt_section = some d → ∃ sec, ensureSectionExists db pid d = .ok sec) →
      destSectionOf body.targetSectionId task.id_dt_section = task.id_dt_section →
      task.rank = some (computeNewRankTask db pid task.id_dt_section
        (resolvedNeighborTask db pid tid task.id_dt_section body.afterId)
        (resolvedNeighborTask db pid tid task.id_dt_section body.beforeId)) →
      moveTask db pj tk body = .ok (.noWrite task)) ∧
    (∀ (db : Db) (sk : String) (bIn aIn : Option String) (sid : String)
        (sub : SubTaskRow) (tid : String),
      normalizeGuid (some sk) = some sid →
      db.subtasks.find? (fun s => s.id == sid) = some sub →
      sub.id_dt_task = some tid →
      ¬ tid.length = 0 →
      sub.rank = some (computeNewRankSub db tid
        (resolvedNeighborSub db sid tid aIn)
        (resolvedNeighborSub db sid tid bIn)) →
      moveSubTaskOnce db sk bIn aIn = .ok (.noWrite sub)) := by
  constructor
  · intro db pj tk body pid tid task hpid htid htask hrefetch hsec hsame hrank
    unfold moveTask
    simp only [hpid, htid, htask, hsame]
    cases hts : task.id_dt_section with
    | none =>
      rw [hts] at hrank
      simp [hts, hrank, hrefetch]
    | some d =>
      obtain ⟨sec, hsecok⟩ := hsec d hts
      rw [hts] at hrank
      simp [hts, hsecok, hrank, hrefetch, Except.map]
  · intro db sk bIn aIn sid sub tid hsid hsub htask hlen hrank
    unfold moveSubTaskOnce
    simp only [hsid, hsub, htask]
    rw [if_neg hlen]
    simp [hrank, hsub]

/-- C5 witness: moving task B of `[A(10), B(20), C(30), D(40)]` with its
true neighbors named (`afterId` = A, `beforeId` = C) recomputes B's own key
20 and returns the stored row without writing; likewise for subtask B of
`[A(10), B(20), C(30)]`. -/
theorem claim5_noop_witness :
    moveTask demoDb pidMain tidB ⟨none, some tidC, some tidA⟩ =
      .ok (.noWrite ⟨tidB, pidMain, some sidMain, some "0000000000000020"⟩) ∧
    moveSubTaskOnce demoDb stB (some stC) (some stA) =
      .ok (.noWrite ⟨stB, some tidA, some "0000000000000020"⟩) :=
  ⟨claim5_noop.1 demoDb pidMain tidB ⟨none, some tidC, some tidA⟩ pidMain tidB
      ⟨tidB, pidMain, some sidMain, some "0000000000000020"⟩
      (by decide) (by decide) (by decide) (by decide)
      (fun d hd => ⟨⟨sidMain, pidMain, "8888888888888888"⟩, by
        injection hd with hd
        subst hd
        decide⟩)
      (by decide) (by decide),
   claim5_noop.2 demoDb stB (some stC) (some stA) stB
      ⟨stB, some tidA, some "0000000000000020"⟩ tidA
      (by decide) (by decide) (by decide) (by decide) (by decide)⟩

/-! ## Claim C4 -/

/-- C4: when only the `afterId` neighbor resolves, the upper boundary
handed to the allocator is the rank of the row the `nextBelow` query finds
(lines 1403-1414): a row of the destination container whose rank is
strictly greater than the named neighbor's and minimal in the store's
ascending rank order among all such rows; with non-adjacent in-range keys
the allocated key then lies strictly between the named neighbor's key and
that true next-below key.  The concrete conjuncts run the full move on
container order `[A(10), B(20), C(30), D(40)]`: moving D with only
`afterId = A` lands on key 15, strictly between 10 and 20, although the
client never mentioned B. -/
theorem claim4_stale_neighbor :
    (∀ (db : Db) (pid : String) (dest : Option String) (t : TaskRow) (r : String)
        (row : TaskRow) (u : String),
      t.rank = some r →
      findFirstAsc TaskRow.rank
        (fun x => inDest pid dest x && rankGtB (some r) x.rank) db.tasks = some row →
      row.rank = some u →
      (row ∈ db.tasks ∧ inDest pid dest row = true ∧ rankGtB (some r) row.rank = true ∧
        ∀ x ∈ db.tasks, inDest pid dest x = true → rankGtB (some r) x.rank = true →
          rankAscBeforeB x.rank row.rank = false) ∧
      computeNewRankTask db pid dest (some t) none = rankBetween (some r) (some u) ∧
      (¬ r.length = 0 → ¬ u.length = 0 → strToNat r + 1 < strToNat u → strToNat u ≤ MAX →
        strToNat r < strToNat (computeNewRankTask db pid dest (some t) none) ∧
        strToNat (computeNewRankTask db pid dest (some t) none) < strToNat u)) ∧
    moveTask demoDb pidMain tidD ⟨none, none, some tidA⟩ =
      .ok (.wrote tidD (some sidMain) "0000000000000015") ∧
    strToNat "0000000000000010" < strToNat "0000000000000015" ∧
    strToNat "0000000000000015" < strToNat "0000000000000020" := by
  refine ⟨?_, by decide, by decide, by decide⟩
  intro db pid dest t r row u ht hfind hu
  have heq : computeNewRankTask db pid dest (some t) none =
      rankBetween (some r) (some u) := by
    show rankBetween t.rank
      ((findFirstAsc TaskRow.rank
        (fun x => inDest pid dest x && rankGtB t.rank x.rank) db.tasks).bind TaskRow.rank) =
      rankBetween (some r) (some u)
    rw [ht, hfind]
    simp [Option.bind, hu]
  refine ⟨?_, heq, ?_⟩
  · have hmem := firstBy_mem _ _ _ hfind
    have hfiltered := List.mem_filter.mp hmem
    have hp := hfiltered.2
    simp only [Bool.and_eq_true] at hp
    refine ⟨hfiltered.1, hp.1, hp.2, ?_⟩
    intro x hx hxdest hxgt
    have hxf : x ∈ db.tasks.filter
        (fun x => inDest pid dest x && rankGtB (some r) x.rank) :=
      List.mem_filter.mpr ⟨hx, by simp [hxdest, hxgt]⟩
    exact firstBy_min (fun a b => rankAscBeforeB (TaskRow.rank a) (TaskRow.rank b))
      (fun a b c hab hbc => rankAscBeforeB_trans hab hbc)
      (fun a => rankAscBeforeB_irrefl _)
      (db.tasks.filter (fun x => inDest pid dest x && rankGtB (some r) x.rank))
      row hfind x hxf
  · intro hr0 hu0 hadj hmax
    rw [heq]
    have hbr : isBlank (some r) = false := by
      show (r.length == 0) = false
      simpa using hr0
    have hbu : isBlank (some u) = false := by
      show (u.length == 0) = false
      simpa using hu0
    unfold rankBetween
    rw [hbr, hbu]
    simp only [Bool.false_and, Bool.and_false, Bool.false_eq_true, if_false]
    have htbr : toBig (some r) = strToNat r := by
      show (if r.length = 0 then 0 else strToNat r) = strToNat r
      rw [if_neg hr0]
    have htbu : toBig (some u) = strToNat u := by
      show (if u.length = 0 then 0 else strToNat u) = strToNat u
      rw [if_neg hu0]
    rw [htbr, htbu]
    exact mid_between hadj hmax

/-- C4 witness: the general statement instantiated on the demo container —
the allocator receives B's key 20 as upper boundary when only A is named,
and the allocated key is strictly between 10 and 20. -/
theorem claim4_stale_neighbor_witness :
    computeNewRankTask demoDb pidMain (some sidMain)
      (some ⟨tidA, pidMain, some sidMain, some "0000000000000010"⟩) none =
      rankBetween (some "0000000000000010") (some "0000000000000020") ∧
    (strToNat "0000000000000010" <
      strToNat (computeNewRankTask demoDb pidMain (some sidMain)
        (some ⟨tidA, pidMain, some sidMain, some "0000000000000010"⟩) none) ∧
     strToNat (computeNewRankTask demoDb pidMain (some sidMain)
        (some ⟨tidA, pidMain, some sidMain, some "0000000000000010"⟩) none) <
      strToNat "0000000000000020") :=
  have h := claim4_stale_neighbor.1 demoDb pidMain (some sidMain)
    ⟨tidA, pidMain, some sidMain, some "0000000000000010"⟩ "0000000000000010"
    ⟨tidB, pidMain, some sidMain, some "0000000000000020"⟩ "0000000000000020"
    (by decide) (by decide) (by decide)
  ⟨h.2.1, h.2.2 (by decide) (by decide) (by decide) (by decide)⟩

end TaskManager
